import Mathlib

set_option maxHeartbeats 1000000

/-!
Verification development for the authenticated batch-upload pipeline of the
nementium_rocket dashboard.  The source files embedded here are
`src/utils/fetchWithAuth.ts` (the credentialed request gateway),
`src/App.tsx` (`handleLogout`), and the second `UploadPage` component of
`src/pages/UploadPage.tsx` (queue builder `isAllowed`/`addFiles`/`removeFile`,
batch controller `confirmUpload`, success modal, and the `retryWebhook`
re-entrancy guard `retryingId`).
-/

/- ===== Credentialed request gateway (src/utils/fetchWithAuth.ts) ===== -/

/-- Lowercase a string character by character (header-name normalization
performed by the `Headers` constructor and accessors). -/
def lowerStr (s : String) : String :=
  String.mk (s.toList.map Char.toLower)

/-- Normalized header-name key. -/
def hKey (s : String) : String := lowerStr s

/-- `Headers.set`: replace the value of an existing header with the same
normalized name, otherwise append the pair. -/
def headersSet (hs : List (String × String)) (k v : String) :
    List (String × String) :=
  if hs.any (fun p => p.1 = hKey k) then
    hs.map (fun p => if p.1 = hKey k then (p.1, v) else p)
  else
    hs ++ [(hKey k, v)]

/-- `new Headers(init)`: names are normalized to lowercase, values kept. -/
def mkHeaders (init : List (String × String)) : List (String × String) :=
  init.map (fun p => (hKey p.1, p.2))

/-- Header lookup by normalized name. -/
def headersGet (hs : List (String × String)) (k : String) : Option String :=
  (hs.find? (fun p => p.1 = hKey k)).map (fun p => p.2)

/-- JavaScript truthiness of the optional `token` argument: absent or the
empty string count as no credential. -/
def tokenPresent : Option String → Bool
  | none => false
  | some t => !(t = "")

/-- The headers actually sent by `fetchWithAuth`: build `new Headers` from the
caller options and, if a credential is present, `set` the
`Authorization: Bearer <token>` header. -/
def fetchWithAuthHeaders (init : List (String × String))
    (token : Option String) : List (String × String) :=
  match token with
  | none => mkHeaders init
  | some t =>
      if t = "" then mkHeaders init
      else headersSet (mkHeaders init) "Authorization" ("Bearer " ++ t)

/-- A network response: status code and body text. -/
structure Resp where
  status : Nat
  body : String
deriving DecidableEq, Repr

/-- `res.ok`: status in the range 200..299. -/
def respOk (r : Resp) : Bool := 200 ≤ r.status && r.status < 300

/-- Observable side effects of the gateway on a 401 response. -/
inductive GEv
  | expiredNotice
  | logoutInvoked
deriving DecidableEq, Repr

/-- Application session state (`App.tsx`): the stored credential and the
current page. -/
structure AppState where
  token : Option String
  page : String
deriving DecidableEq, Repr

/-- `handleLogout` of `App.tsx`: clear the stored credential and return to the
dashboard page. -/
def handleLogout (_s : AppState) : AppState :=
  { token := none, page := "dashboard" }

/-- `fetchWithAuth`: attach the credential header, issue the call (modelled by
the oracle `net` mapping sent headers to a response), then, when the status is
401 and an expiry callback was supplied, surface the blocking expiry notice
and invoke the callback.  Returns the raw response, the effect trace in
order, and the resulting application state. -/
def fetchWithAuth (init : List (String × String)) (token : Option String)
    (onLogout : Option (AppState → AppState))
    (net : List (String × String) → Resp) (s : AppState) :
    Resp × List GEv × AppState :=
  let hs := fetchWithAuthHeaders init token
  let r := net hs
  match onLogout with
  | some f =>
      if r.status = 401 then (r, [GEv.expiredNotice, GEv.logoutInvoked], f s)
      else (r, [], s)
  | none => (r, [], s)

/- ===== Upload queue builder (UploadPage.tsx, second component) ===== -/

/-- A pending file in the queue: name, byte size, MIME type. -/
structure UFile where
  name : String
  size : Nat
  mime : String
deriving DecidableEq, Repr

/-- The two allowed MIME types (`ALLOWED_TYPES`). -/
def ALLOWED_TYPES : List String :=
  ["application/pdf",
   "application/vnd.openxmlformats-officedocument.spreadsheetml.sheet"]

/-- Suffix test on strings, used for the filename-extension fallback. -/
def strEndsWith (s suffix : String) : Bool :=
  suffix.toList.isSuffixOf s.toList

/-- `isAllowed`: the MIME type is in the allow-list, or the lowercased file
name ends in `.pdf` or `.xlsx`. -/
def isAllowed (f : UFile) : Bool :=
  ALLOWED_TYPES.contains f.mime
    || strEndsWith (lowerStr f.name) ".pdf"
    || strEndsWith (lowerStr f.name) ".xlsx"

/-- Two pending files collide for deduplication when name and size agree. -/
def sameKey (a b : UFile) : Bool := a.name = b.name && a.size = b.size

/-- The dedup loop of `addFiles`: fold the valid candidates over a copy of
the current queue, appending each candidate whose (name, size) is not yet
present. -/
def dedupAdd (queue valid : List UFile) : List UFile :=
  valid.foldl
    (fun dedup f => if dedup.any (fun d => sameKey d f) then dedup
                    else dedup ++ [f])
    queue

/-- `addFiles`: filter candidates through `isAllowed`, raise the
ignored-files notice when any candidate was dropped, then dedup-append the
valid ones.  Returns the new queue and whether the notice was raised. -/
def addFiles (queue incoming : List UFile) : List UFile × Bool :=
  let valid := incoming.filter isAllowed
  (dedupAdd queue valid, !(valid.length = incoming.length))

/-- `removeFile`: drop the entries matching the given (name, size). -/
def removeFile (queue : List UFile) (name : String) (size : Nat) :
    List UFile :=
  queue.filter (fun f => !(f.name = name && f.size = size))

/-- The queue invariant: no two entries share (name, size). -/
def noDupKey (q : List UFile) : Prop :=
  q.Pairwise (fun a b => ¬(a.name = b.name ∧ a.size = b.size))

/- ===== Batch upload controller (confirmUpload) ===== -/

/-- Observable events of one batch run, in program order. -/
inductive Ev
  | request (i : Nat) (name : String) (tipo : String)
  | response (i : Nat) (ok : Bool)
  | alertMsg (s : String)
  | histRefresh
  | sleepMs (ms : Nat)
deriving DecidableEq, Repr

/-- The sequential loop of `confirmUpload`, run from index `i`: for each file
issue the multipart upload request, await the response; on a non-ok response
log and alert naming the file with the response body and continue; on ok
refresh the history and, when a positive delay is configured, sleep. -/
def uploadLoop (files : List UFile) (tipo : String) (oracle : Nat → Resp)
    (i : Nat) (delayMs : Nat) : List Ev :=
  match files with
  | [] => []
  | f :: rest =>
      let r := oracle i
      (Ev.request i f.name tipo :: Ev.response i (respOk r) ::
        (if respOk r then
          Ev.histRefresh ::
            (if 0 < delayMs then [Ev.sleepMs delayMs] else [])
         else
          [Ev.alertMsg ("Fallo subiendo " ++ f.name ++ ": " ++ r.body)]))
      ++ uploadLoop rest tipo oracle (i + 1) delayMs

/-- UploadPage component state relevant to a batch run. -/
structure PageState where
  files : List UFile
  showConfirm : Bool
  showSuccess : Bool
  uploading : Bool
deriving DecidableEq, Repr

/-- `confirmUpload`: guard on credential, document kind and non-empty queue;
run the sequential loop; then hide the confirm modal, clear the queue and
show the success modal.  Returns the final state and the event trace. -/
def confirmUpload (token : Option String) (docType : Option String)
    (oracle : Nat → Resp) (delayMs : Nat) (st : PageState) :
    PageState × List Ev :=
  match token, docType with
  | some t, some tipo =>
      if t = "" ∨ st.files = [] then (st, [])
      else
        let tr := uploadLoop st.files tipo oracle 0 delayMs
        ({ st with showConfirm := false, files := [], showSuccess := true,
                   uploading := false }, tr)
  | _, _ => (st, [])

/-- The heading of the success modal, rendered from the current queue:
singular or plural of "Archivo subido correctamente" depending on
`files.length > 1`; it contains no count. -/
def successHeading (files : List UFile) : String :=
  "✅ Archivo" ++ (if 1 < files.length then "s" else "")
    ++ " subido" ++ (if 1 < files.length then "s" else "")
    ++ " correctamente"

/- ===== Request/response order projection ===== -/

/-- Request and response events only, as observed at the network boundary. -/
inductive RR
  | req (i : Nat) (name : String)
  | resp (i : Nat) (ok : Bool)
deriving DecidableEq, Repr

/-- Project an event to its network view, when it has one. -/
def rrOf : Ev → Option RR
  | Ev.request i n _ => some (RR.req i n)
  | Ev.response i ok => some (RR.resp i ok)
  | _ => none

/-- The network view of a trace. -/
def rrTrace (tr : List Ev) : List RR := tr.filterMap rrOf

/-- The strictly sequential network behaviour the specification demands:
request `i` for the first file, then its response, and only then the same
pattern for the remaining files — request `k+1` never appears before
response `k`, and requests follow the queue order and names exactly. -/
def expectedRR : List UFile → (Nat → Resp) → Nat → List RR
  | [], _, _ => []
  | f :: rest, oracle, i =>
      RR.req i f.name :: RR.resp i (respOk (oracle i)) ::
        expectedRR rest oracle (i + 1)

/- ===== History retry guard (retryWebhook / retryingId) ===== -/

/-- Upload status of a historical record. -/
inductive UploadStatus
  | UPLOADED
  | PROCESSING
  | PROCESSED
  | FAILED
  | DUPLICATED
deriving DecidableEq, Repr

/-- Retry-guard state: the single `retryingId` slot of the component, plus
the set of record ids whose retry request is still pending (ghost state
tracking in-flight asynchronous calls). -/
structure RetryState where
  retryingId : Option String
  inFlight : List String
deriving DecidableEq, Repr

/-- The retry button is rendered only for records with status FAILED. -/
def retryButtonShown (status : Option UploadStatus) : Bool :=
  status = some UploadStatus.FAILED

/-- The rendered retry button for a record is disabled exactly when
`retryingId` equals that record id. -/
def retryButtonDisabled (st : RetryState) (id : String) : Bool :=
  st.retryingId = some id

/-- A retry for a record can be started when its button is rendered and not
disabled. -/
def canStartRetry (st : RetryState) (status : Option UploadStatus)
    (id : String) : Bool :=
  retryButtonShown status && !(retryButtonDisabled st id)

/-- Entering `retryWebhook`: `setRetryingId(op.id)`; the request becomes
pending. -/
def startRetry (st : RetryState) (id : String) : RetryState :=
  { retryingId := some id, inFlight := id :: st.inFlight }

/-- The `finally` block of `retryWebhook`: `setRetryingId(null)`; the request
for that id resolves. -/
def finishRetry (st : RetryState) (id : String) : RetryState :=
  { retryingId := none, inFlight := st.inFlight.erase id }

/-- Event predicate: the upload request for queue index `k`. -/
def isReqIdx (k : Nat) : Ev → Bool
  | Ev.request i _ _ => i = k
  | _ => false

/-- Event predicate: a pacing suspension. -/
def isSleepEv : Ev → Bool
  | Ev.sleepMs _ => true
  | _ => false

/- ===== Helper lemmas ===== -/

lemma rrTrace_nil : rrTrace [] = [] := rfl

lemma rrTrace_uploadLoop (files : List UFile) (tipo : String)
    (oracle : Nat → Resp) (d : Nat) :
    ∀ i, rrTrace (uploadLoop files tipo oracle i d) = expectedRR files oracle i := by
  induction files with
  | nil => intro i; rfl
  | cons f rest ih =>
      intro i
      cases h : respOk (oracle i) with
      | true =>
          by_cases hd : 0 < d <;>
            simp [uploadLoop, h, hd, rrTrace, rrOf, expectedRR,
              List.filterMap_append, List.filterMap_cons, ih i,
              rrTrace_nil] <;> exact ih (i + 1)
      | false =>
          simp [uploadLoop, h, rrTrace, rrOf, expectedRR,
            List.filterMap_append, List.filterMap_cons]
          exact ih (i + 1)

/-- C1: for every batch submission over a non-empty queue with a document
kind and a credential present, the network view of the run is exactly the
strictly sequential pattern `expectedRR`: the request for file `k+1` appears
only after the response for file `k`, and the remote intake observes the
requests in exactly the queue order. -/
theorem claim_C1 (t tipo : String) (st : PageState) (oracle : Nat → Resp)
    (d : Nat) (ht : t ≠ "") (hf : st.files ≠ []) :
    rrTrace (confirmUpload (some t) (some tipo) oracle d st).2
      = expectedRR st.files oracle 0 := by
  simp [confirmUpload, ht, hf]
  exact rrTrace_uploadLoop st.files tipo oracle d 0

/-- Witness for C1 at a concrete two-file batch with both uploads ok. -/
theorem claim_C1_witness :
    rrTrace (confirmUpload (some "tok") (some "factura")
        (fun _ => ⟨200, ""⟩) 0
        ⟨[⟨"a.pdf", 100, "application/pdf"⟩, ⟨"b.xlsx", 200, "x"⟩],
          true, false, false⟩).2
      = [RR.req 0 "a.pdf", RR.resp 0 true, RR.req 1 "b.xlsx", RR.resp 1 true] :=
  (claim_C1 "tok" "factura"
      ⟨[⟨"a.pdf", 100, "application/pdf"⟩, ⟨"b.xlsx", 200, "x"⟩],
        true, false, false⟩
      (fun _ => ⟨200, ""⟩) 0 (by decide) (by decide)).trans (by decide)

/-- C2: on a 401 response with the expiry callback supplied, the gateway
first surfaces the blocking session-expired notice and then invokes the
callback, exactly once; composed with `handleLogout`, the stored credential
is null afterwards. -/
theorem claim_C2 (init : List (String × String)) (token : Option String)
    (net : List (String × String) → Resp) (s : AppState)
    (h : (net (fetchWithAuthHeaders init token)).status = 401) :
    (fetchWithAuth init token (some handleLogout) net s).2.1
        = [GEv.expiredNotice, GEv.logoutInvoked]
    ∧ (fetchWithAuth init token (some handleLogout) net s).2.1.count
        GEv.logoutInvoked = 1
    ∧ (fetchWithAuth init token (some handleLogout) net s).2.2.token = none := by
  simp [fetchWithAuth, h, handleLogout]

/-- Witness for C2 at a concrete 401 response with a stored credential. -/
theorem claim_C2_witness :
    (fetchWithAuth [] (some "t") (some handleLogout) (fun _ => ⟨401, "expired"⟩)
        ⟨some "t", "upload"⟩).2.1 = [GEv.expiredNotice, GEv.logoutInvoked]
    ∧ (fetchWithAuth [] (some "t") (some handleLogout)
        (fun _ => ⟨401, "expired"⟩) ⟨some "t", "upload"⟩).2.1.count
        GEv.logoutInvoked = 1
    ∧ (fetchWithAuth [] (some "t") (some handleLogout)
        (fun _ => ⟨401, "expired"⟩) ⟨some "t", "upload"⟩).2.2.token = none :=
  claim_C2 [] (some "t") (fun _ => ⟨401, "expired"⟩) ⟨some "t", "upload"⟩ rfl

/-- C10: on a 401 response with no expiry callback supplied, the gateway has
no side effect: the effect trace is empty, the application state is
untouched, and the raw response is returned to the caller unchanged. -/
theorem claim_C10 (init : List (String × String)) (token : Option String)
    (net : List (String × String) → Resp) (s : AppState)
    (_h : (net (fetchWithAuthHeaders init token)).status = 401) :
    fetchWithAuth init token none net s
      = (net (fetchWithAuthHeaders init token), [], s) := rfl

/-- Witness for C10 at a concrete 401 response with no callback. -/
theorem claim_C10_witness :
    fetchWithAuth [] (some "t") none (fun _ => ⟨401, "expired"⟩)
        ⟨some "t", "upload"⟩
      = (⟨401, "expired"⟩, [], ⟨some "t", "upload"⟩) :=
  claim_C10 [] (some "t") (fun _ => ⟨401, "expired"⟩) ⟨some "t", "upload"⟩ rfl

lemma find?_setMap (key v : String) (l : List (String × String)) :
    (l.map (fun p => if p.1 = key then (p.1, v) else p)).find?
        (fun p => decide (p.1 = key))
      = (l.find? (fun p => decide (p.1 = key))).map
          (fun p => if p.1 = key then (p.1, v) else p) := by
  induction l with
  | nil => rfl
  | cons a t ih =>
      by_cases ha : a.1 = key
      · rw [List.map_cons, if_pos ha,
          List.find?_cons_of_pos _ (by simp [ha]),
          List.find?_cons_of_pos _ (by simp [ha])]
        simp [ha]
      · rw [List.map_cons, if_neg ha,
          List.find?_cons_of_neg _ (by simp [ha]),
          List.find?_cons_of_neg _ (by simp [ha]), ih]

lemma find?_append_skip {α : Type} (p : α → Bool) (l₁ l₂ : List α)
    (h : l₁.any p = false) : (l₁ ++ l₂).find? p = l₂.find? p := by
  induction l₁ with
  | nil => rfl
  | cons a t ih =>
      simp only [List.any_cons, Bool.or_eq_false_iff] at h
      rw [List.cons_append, List.find?_cons_of_neg _ (by simp [h.1]), ih h.2]

lemma headersGet_set_same (hs : List (String × String)) (k v : String) :
    headersGet (headersSet hs k v) k = some v := by
  unfold headersSet headersGet
  by_cases h : hs.any (fun p => decide (p.1 = hKey k)) = true
  · rw [if_pos h, find?_setMap]
    obtain ⟨q, hq, hqk⟩ := List.any_eq_true.mp h
    have hsome : (hs.find? (fun p => decide (p.1 = hKey k))).isSome :=
      List.find?_isSome.mpr ⟨q, hq, hqk⟩
    obtain ⟨r, hr⟩ := Option.isSome_iff_exists.mp hsome
    have hrk : r.1 = hKey k := by simpa using List.find?_some hr
    rw [hr]
    simp [hrk]
  · rw [if_neg h, find?_append_skip _ _ _
      (by simpa only [Bool.not_eq_true] using h)]
    simp

lemma mem_headersSet_of_ne (hs : List (String × String)) (k v k' v' : String)
    (hmem : (k', v') ∈ hs) (hne : k' ≠ hKey k) :
    (k', v') ∈ headersSet hs k v := by
  unfold headersSet
  by_cases h : hs.any (fun p => decide (p.1 = hKey k)) = true
  · rw [if_pos h]
    have he : (fun p : String × String =>
        if p.1 = hKey k then (p.1, v) else p) (k', v') = (k', v') := by
      simp [hne]
    exact he ▸ List.mem_map_of_mem _ hmem
  · rw [if_neg h]
    exact List.mem_append_left _ hmem

/-- C7 (amended): the gateway attaches `Authorization: Bearer <credential>`
exactly when a non-empty credential is supplied; caller-supplied headers with
a name other than Authorization are preserved; with no credential the headers
are left unmodified (beyond the name normalization of the Headers
constructor).  The amendment is forced by `claim_C7_counterexample`: a
caller-supplied Authorization header is overwritten, not preserved, when a
credential is supplied. -/
theorem claim_C7 (init : List (String × String)) (t : String) (ht : t ≠ "") :
    headersGet (fetchWithAuthHeaders init (some t)) "Authorization"
        = some ("Bearer " ++ t)
    ∧ (∀ k v, (k, v) ∈ mkHeaders init → k ≠ "authorization" →
        (k, v) ∈ fetchWithAuthHeaders init (some t))
    ∧ fetchWithAuthHeaders init none = mkHeaders init := by
  refine ⟨?_, ?_, rfl⟩
  · simp only [fetchWithAuthHeaders, ht, if_neg ht]
    exact headersGet_set_same _ _ _
  · intro k v hmem hne
    simp only [fetchWithAuthHeaders, if_neg ht]
    refine mem_headersSet_of_ne _ _ _ _ _ hmem ?_
    have hk : hKey "Authorization" = "authorization" := by decide
    rw [hk]; exact hne

/-- Counterexample to C7 as stated: the caller supplies an Authorization
header and a credential is also supplied; `headers.set` overwrites the
caller value, so caller-supplied headers are not preserved in either case. -/
theorem claim_C7_counterexample :
    ("authorization", "Bearer old") ∈ mkHeaders [("Authorization", "Bearer old")]
    ∧ ("authorization", "Bearer old") ∉
        fetchWithAuthHeaders [("Authorization", "Bearer old")] (some "new")
    ∧ headersGet (fetchWithAuthHeaders [("Authorization", "Bearer old")]
        (some "new")) "Authorization" = some "Bearer new" := by decide

/-- Counterexample to C3 as stated: for a two-file batch where both uploads
succeed, the queue is cleared before the success modal renders, so the modal
heading is the singular generic message and never contains "2 archivos" (nor
any count). -/
theorem claim_C3_counterexample :
    (confirmUpload (some "tok") (some "factura") (fun _ => ⟨200, "ok"⟩) 0
        ⟨[⟨"a.pdf", 100, "application/pdf"⟩, ⟨"b.xlsx", 200, "x"⟩],
          true, false, false⟩).1.showSuccess = true
    ∧ (confirmUpload (some "tok") (some "factura") (fun _ => ⟨200, "ok"⟩) 0
        ⟨[⟨"a.pdf", 100, "application/pdf"⟩, ⟨"b.xlsx", 200, "x"⟩],
          true, false, false⟩).1.files = []
    ∧ successHeading (confirmUpload (some "tok") (some "factura")
        (fun _ => ⟨200, "ok"⟩) 0
        ⟨[⟨"a.pdf", 100, "application/pdf"⟩, ⟨"b.xlsx", 200, "x"⟩],
          true, false, false⟩).1.files = "✅ Archivo subido correctamente"
    ∧ ¬ (("2 archivos".toList) <:+: (successHeading (confirmUpload (some "tok")
        (some "factura") (fun _ => ⟨200, "ok"⟩) 0
        ⟨[⟨"a.pdf", 100, "application/pdf"⟩, ⟨"b.xlsx", 200, "x"⟩],
          true, false, false⟩).1.files).toList) := by decide

/-- C3 (amended): after the full queue is drained — even when some per-file
uploads failed — the confirm modal is hidden, the queue is cleared and the
success modal is shown; but the success confirmation does not count the
submitted files: it renders the generic singular heading, because the queue
is already empty when the modal renders. -/
theorem claim_C3 (t tipo : String) (st : PageState) (oracle : Nat → Resp)
    (d : Nat) (ht : t ≠ "") (hf : st.files ≠ []) :
    (confirmUpload (some t) (some tipo) oracle d st).1.files = []
    ∧ (confirmUpload (some t) (some tipo) oracle d st).1.showSuccess = true
    ∧ (confirmUpload (some t) (some tipo) oracle d st).1.showConfirm = false
    ∧ successHeading (confirmUpload (some t) (some tipo) oracle d st).1.files
        = "✅ Archivo subido correctamente" := by
  simp [confirmUpload, ht, hf]
  decide

/-- Counterexample to C4 as stated: with a positive configured delay, a batch
whose first upload fails proceeds to the second request with no suspension in
between — the failure branch skips the pacing sleep via `continue`. -/
theorem claim_C4_counterexample :
    uploadLoop [⟨"a.pdf", 100, "application/pdf"⟩, ⟨"b.xlsx", 200, "x"⟩]
        "factura" (fun i => if i = 0 then ⟨500, "boom"⟩ else ⟨200, ""⟩) 0 5
      = [Ev.request 0 "a.pdf" "factura", Ev.response 0 false,
         Ev.alertMsg "Fallo subiendo a.pdf: boom",
         Ev.request 1 "b.xlsx" "factura", Ev.response 1 true,
         Ev.histRefresh, Ev.sleepMs 5]
    ∧ ((uploadLoop [⟨"a.pdf", 100, "application/pdf"⟩, ⟨"b.xlsx", 200, "x"⟩]
        "factura" (fun i => if i = 0 then ⟨500, "boom"⟩ else ⟨200, ""⟩) 0
        5).takeWhile (fun e => !(isReqIdx 1 e))).any isSleepEv = false
    ∧ (uploadLoop [⟨"a.pdf", 100, "application/pdf"⟩, ⟨"b.xlsx", 200, "x"⟩]
        "factura" (fun i => if i = 0 then ⟨500, "boom"⟩ else ⟨200, ""⟩) 0
        5).any (isReqIdx 1) = true := by decide

/-- C4 (amended): with a positive configured inter-item delay, the controller
suspends after a successfully processed file before starting the next one;
after a failed file it continues to the next file immediately, without the
suspension. -/
theorem claim_C4 (f : UFile) (rest : List UFile) (tipo : String)
    (oracle : Nat → Resp) (i d : Nat) (hd : 0 < d) :
    (respOk (oracle i) = true →
      uploadLoop (f :: rest) tipo oracle i d
        = Ev.request i f.name tipo :: Ev.response i true :: Ev.histRefresh ::
            Ev.sleepMs d :: uploadLoop rest tipo oracle (i + 1) d)
    ∧ (respOk (oracle i) = false →
      uploadLoop (f :: rest) tipo oracle i d
        = Ev.request i f.name tipo :: Ev.response i false ::
            Ev.alertMsg ("Fallo subiendo " ++ f.name ++ ": " ++ (oracle i).body)
              :: uploadLoop rest tipo oracle (i + 1) d) := by
  constructor
  · intro h; simp [uploadLoop, h, hd]
  · intro h; simp [uploadLoop, h]

/-- C5: on a non-success response for a file, the controller captures the
response body as the failure detail, alerts naming that file, and continues
with the remaining files; the network view of the whole run is still the full
sequential pattern, so one failure never aborts the batch. -/
theorem claim_C5 (f : UFile) (rest : List UFile) (tipo : String)
    (oracle : Nat → Resp) (i d : Nat) (h : respOk (oracle i) = false) :
    uploadLoop (f :: rest) tipo oracle i d
      = Ev.request i f.name tipo :: Ev.response i false ::
          Ev.alertMsg ("Fallo subiendo " ++ f.name ++ ": " ++ (oracle i).body)
            :: uploadLoop rest tipo oracle (i + 1) d
    ∧ rrTrace (uploadLoop (f :: rest) tipo oracle i d)
        = expectedRR (f :: rest) oracle i := by
  exact ⟨by simp [uploadLoop, h], rrTrace_uploadLoop (f :: rest) tipo oracle d i⟩

/-- Counterexample to C6 as stated: from the idle state, a retry for record
"42" starts, then a retry for record "43" legitimately starts; the single
shared `retryingId` slot now holds "43", so a second retry for "42" can be
started even though its first retry is still in flight. -/
theorem claim_C6_counterexample :
    canStartRetry ⟨none, []⟩ (some UploadStatus.FAILED) "42" = true
    ∧ canStartRetry (startRetry ⟨none, []⟩ "42")
        (some UploadStatus.FAILED) "43" = true
    ∧ "42" ∈ (startRetry (startRetry ⟨none, []⟩ "42") "43").inFlight
    ∧ canStartRetry (startRetry (startRetry ⟨none, []⟩ "42") "43")
        (some UploadStatus.FAILED) "42" = true := by decide

/-- C6 (amended): retry can only be started for records with status FAILED;
immediately after a retry for a record starts, that record is the value of
the single shared guard slot and its control is disabled, so a second retry
for the same record cannot start while no retry for a different record
intervenes (the guard is one shared slot, not keyed per record id); the
controls of other records are not disabled by an in-flight retry. -/
theorem claim_C6 (st : RetryState) (status : Option UploadStatus)
    (id id' : String) :
    (canStartRetry st status id = true → status = some UploadStatus.FAILED)
    ∧ canStartRetry (startRetry st id) status id = false
    ∧ (id' ≠ id →
        canStartRetry (startRetry st id) status id' = retryButtonShown status) := by
  refine ⟨?_, ?_, ?_⟩
  · intro h
    simp [canStartRetry, retryButtonShown, retryButtonDisabled] at h
    exact h.1
  · simp [canStartRetry, retryButtonShown, retryButtonDisabled, startRetry]
  · intro h
    simp [canStartRetry, retryButtonShown, retryButtonDisabled, startRetry,
      Ne.symm h]

lemma sameKey_iff (a b : UFile) :
    sameKey a b = true ↔ a.name = b.name ∧ a.size = b.size := by
  simp [sameKey]

lemma dedupAdd_cons (queue : List UFile) (v : UFile) (rest : List UFile) :
    dedupAdd queue (v :: rest)
      = dedupAdd (if queue.any (fun d => sameKey d v) then queue
                  else queue ++ [v]) rest := rfl

lemma mem_dedupAdd_of_mem (valid : List UFile) :
    ∀ queue, ∀ a ∈ queue, a ∈ dedupAdd queue valid := by
  induction valid with
  | nil => intro queue a ha; exact ha
  | cons v rest ih =>
      intro queue a ha
      rw [dedupAdd_cons]
      by_cases h : queue.any (fun d => sameKey d v) = true
      · simpa [h] using ih queue a ha
      · simp only [h, if_neg, Bool.false_eq_true, not_false_iff, if_false]
        exact ih (queue ++ [v]) a (List.mem_append_left _ ha)

lemma dedupAdd_key_covered (valid : List UFile) :
    ∀ queue, ∀ f ∈ valid,
      ∃ g ∈ dedupAdd queue valid, g.name = f.name ∧ g.size = f.size := by
  induction valid with
  | nil => simp
  | cons v rest ih =>
      intro queue f hf
      rw [dedupAdd_cons]
      rcases List.mem_cons.mp hf with rfl | hf'
      · by_cases h : queue.any (fun d => sameKey d f) = true
        · obtain ⟨d, hd, hdk⟩ := List.any_eq_true.mp h
          refine ⟨d, ?_, (sameKey_iff d f).mp hdk⟩
          simpa [h] using mem_dedupAdd_of_mem rest queue d hd
        · refine ⟨f, ?_, rfl, rfl⟩
          have hm : f ∈ queue ++ [f] := List.mem_append_right _ (by simp)
          simpa [h] using mem_dedupAdd_of_mem rest (queue ++ [f]) f hm
      · by_cases h : queue.any (fun d => sameKey d v) = true
        · simpa [h] using ih queue f hf'
        · simpa [h] using ih (queue ++ [v]) f hf'

lemma mem_of_mem_dedupAdd (valid : List UFile) :
    ∀ queue a, a ∈ dedupAdd queue valid → a ∈ queue ∨ a ∈ valid := by
  induction valid with
  | nil => intro queue a h; exact Or.inl h
  | cons v rest ih =>
      intro queue a h
      rw [dedupAdd_cons] at h
      by_cases hb : queue.any (fun d => sameKey d v) = true
      · rw [if_pos hb] at h
        rcases ih queue a h with h1 | h2
        · exact Or.inl h1
        · exact Or.inr (List.mem_cons_of_mem _ h2)
      · rw [if_neg hb] at h
        rcases ih (queue ++ [v]) a h with h1 | h2
        · rcases List.mem_append.mp h1 with hq | hv
          · exact Or.inl hq
          · rw [List.mem_singleton] at hv
            exact Or.inr (hv ▸ List.mem_cons_self v rest)
        · exact Or.inr (List.mem_cons_of_mem _ h2)

lemma length_filter_eq_iff {α : Type} (p : α → Bool) (l : List α) :
    (l.filter p).length = l.length ↔ ∀ a ∈ l, p a = true := by
  induction l with
  | nil => simp
  | cons a t ih =>
      by_cases ha : p a = true
      · simp [List.filter_cons, ha, ih]
      · have hle := List.length_filter_le p t
        simp only [List.filter_cons, ha, Bool.false_eq_true, not_false_iff,
          if_false, List.length_cons, List.mem_cons]
        constructor
        · intro hlen; omega
        · intro hall; exact absurd (hall a (Or.inl rfl)) ha

/-- C8: a candidate is accepted exactly when its MIME type is one of the two
allowed types or its lowercased name ends in .pdf or .xlsx; the
ignored-files notice is raised exactly when some candidate fails validation;
every valid candidate is still represented in the new queue by its
(name, size) even when other candidates were rejected; and conversely every
entry of the new queue either was already in the queue or is an allowed
incoming candidate — so candidates failing validation are dropped, never
added. -/
theorem claim_C8 (queue incoming : List UFile) :
    ((addFiles queue incoming).2 = true ↔ ∃ f ∈ incoming, isAllowed f = false)
    ∧ (∀ f ∈ incoming, isAllowed f = true →
        ∃ g ∈ (addFiles queue incoming).1, g.name = f.name ∧ g.size = f.size)
    ∧ (∀ f : UFile, isAllowed f = true ↔
        (f.mime ∈ ALLOWED_TYPES ∨ strEndsWith (lowerStr f.name) ".pdf" = true
          ∨ strEndsWith (lowerStr f.name) ".xlsx" = true))
    ∧ (∀ g ∈ (addFiles queue incoming).1,
        g ∈ queue ∨ (g ∈ incoming ∧ isAllowed g = true)) := by
  refine ⟨?_, ?_, ?_, ?_⟩
  · have key : (addFiles queue incoming).2 = true ↔
        ¬((incoming.filter isAllowed).length = incoming.length) := by
      simp [addFiles]
    rw [key, length_filter_eq_iff]
    constructor
    · intro h
      by_contra hno
      push_neg at hno
      exact h (fun a ha => eq_true_of_ne_false (hno a ha))
    · rintro ⟨f, hf, hfa⟩ hall
      rw [hall f hf] at hfa
      exact Bool.noConfusion hfa
  · intro f hf hall
    have hv : f ∈ incoming.filter isAllowed := List.mem_filter.mpr ⟨hf, hall⟩
    exact dedupAdd_key_covered _ queue f hv
  · intro f
    simp [isAllowed]
    exact or_assoc
  · intro g hg
    rcases mem_of_mem_dedupAdd _ queue g hg with h | h
    · exact Or.inl h
    · exact Or.inr (List.mem_filter.mp h)

lemma noDupKey_dedupAdd (valid : List UFile) :
    ∀ queue, noDupKey queue → noDupKey (dedupAdd queue valid) := by
  induction valid with
  | nil => intro queue hq; exact hq
  | cons v rest ih =>
      intro queue hq
      rw [dedupAdd_cons]
      by_cases h : queue.any (fun d => sameKey d v) = true
      · simpa [h] using ih queue hq
      · have hall : ∀ d ∈ queue, sameKey d v = false := by
          intro d hd
          by_contra hc
          exact (by simp [List.any_eq_true]; exact ⟨d, hd,
            eq_true_of_ne_false hc⟩ : queue.any (fun d => sameKey d v) = true)
            |> h
        have hnew : noDupKey (queue ++ [v]) := by
          rw [noDupKey, List.pairwise_append]
          refine ⟨hq, List.pairwise_singleton _ _, ?_⟩
          intro a ha b hb
          rw [List.mem_singleton] at hb
          subst hb
          intro hk
          have := (sameKey_iff a b).mpr hk
          rw [hall a ha] at this
          exact Bool.noConfusion this
        simpa [h] using ih (queue ++ [v]) hnew

/-- C9: for every starting queue satisfying the no-duplicate (name, size)
invariant, `addFiles` and `removeFile` preserve it, and adding a single
candidate whose (name, size) is already present leaves the queue unchanged. -/
theorem claim_C9 (queue incoming : List UFile) (f : UFile) (name : String)
    (size : Nat) (hq : noDupKey queue) :
    noDupKey (addFiles queue incoming).1
    ∧ noDupKey (removeFile queue name size)
    ∧ ((∃ d ∈ queue, d.name = f.name ∧ d.size = f.size) →
        (addFiles queue [f]).1 = queue) := by
  refine ⟨?_, ?_, ?_⟩
  · exact noDupKey_dedupAdd _ queue hq
  · exact List.Pairwise.sublist (List.filter_sublist queue) hq
  · rintro ⟨d, hd, hdn, hds⟩
    have hany : queue.any (fun e => sameKey e f) = true :=
      List.any_eq_true.mpr ⟨d, hd, (sameKey_iff d f).mpr ⟨hdn, hds⟩⟩
    by_cases hall : isAllowed f = true
    · simp [addFiles, List.filter_cons, hall, dedupAdd_cons, hany, dedupAdd]
      exact List.any_eq_true.mp hany
    · simp [addFiles, List.filter_cons, hall, dedupAdd]

/-- Witness for C3 at a concrete one-file batch with a failing upload. -/
theorem claim_C3_witness :
    (confirmUpload (some "tok") (some "factura") (fun _ => ⟨500, "err"⟩) 0
        ⟨[⟨"a.pdf", 100, "application/pdf"⟩], true, false, false⟩).1.files = []
    ∧ (confirmUpload (some "tok") (some "factura") (fun _ => ⟨500, "err"⟩) 0
        ⟨[⟨"a.pdf", 100, "application/pdf"⟩], true, false, false⟩).1.showSuccess
        = true
    ∧ (confirmUpload (some "tok") (some "factura") (fun _ => ⟨500, "err"⟩) 0
        ⟨[⟨"a.pdf", 100, "application/pdf"⟩], true, false, false⟩).1.showConfirm
        = false
    ∧ successHeading (confirmUpload (some "tok") (some "factura")
        (fun _ => ⟨500, "err"⟩) 0
        ⟨[⟨"a.pdf", 100, "application/pdf"⟩], true, false, false⟩).1.files
        = "✅ Archivo subido correctamente" :=
  claim_C3 "tok" "factura"
    ⟨[⟨"a.pdf", 100, "application/pdf"⟩], true, false, false⟩
    (fun _ => ⟨500, "err"⟩) 0 (by decide) (by decide)

/-- Witness for C4 at a concrete successful head file with delay 5. -/
theorem claim_C4_witness :
    uploadLoop [⟨"a.pdf", 100, "m"⟩, ⟨"b.xlsx", 200, "m"⟩] "factura"
        (fun _ => ⟨200, ""⟩) 0 5
      = Ev.request 0 "a.pdf" "factura" :: Ev.response 0 true ::
          Ev.histRefresh :: Ev.sleepMs 5 ::
          uploadLoop [⟨"b.xlsx", 200, "m"⟩] "factura" (fun _ => ⟨200, ""⟩) 1 5 :=
  (claim_C4 ⟨"a.pdf", 100, "m"⟩ [⟨"b.xlsx", 200, "m"⟩] "factura"
    (fun _ => ⟨200, ""⟩) 0 5 (by decide)).1 (by decide)

/-- Witness for C5 at a concrete batch whose first upload returns 500. -/
theorem claim_C5_witness :
    uploadLoop [⟨"a.pdf", 100, "m"⟩, ⟨"b.xlsx", 200, "m"⟩] "factura"
        (fun i => if i = 0 then ⟨500, "boom"⟩ else ⟨200, ""⟩) 0 0
      = Ev.request 0 "a.pdf" "factura" :: Ev.response 0 false ::
          Ev.alertMsg ("Fallo subiendo " ++ "a.pdf" ++ ": " ++ "boom") ::
          uploadLoop [⟨"b.xlsx", 200, "m"⟩] "factura"
            (fun i => if i = 0 then ⟨500, "boom"⟩ else ⟨200, ""⟩) 1 0
    ∧ rrTrace (uploadLoop [⟨"a.pdf", 100, "m"⟩, ⟨"b.xlsx", 200, "m"⟩] "factura"
        (fun i => if i = 0 then ⟨500, "boom"⟩ else ⟨200, ""⟩) 0 0)
      = expectedRR [⟨"a.pdf", 100, "m"⟩, ⟨"b.xlsx", 200, "m"⟩]
          (fun i => if i = 0 then ⟨500, "boom"⟩ else ⟨200, ""⟩) 0 :=
  claim_C5 ⟨"a.pdf", 100, "m"⟩ [⟨"b.xlsx", 200, "m"⟩] "factura"
    (fun i => if i = 0 then ⟨500, "boom"⟩ else ⟨200, ""⟩) 0 0 (by decide)

/-- Witness for C6 at concrete record ids 42 and 43. -/
theorem claim_C6_witness :
    canStartRetry (startRetry ⟨none, []⟩ "42") (some UploadStatus.FAILED) "42"
        = false
    ∧ canStartRetry (startRetry ⟨none, []⟩ "42") (some UploadStatus.FAILED) "43"
        = retryButtonShown (some UploadStatus.FAILED) :=
  ⟨(claim_C6 ⟨none, []⟩ (some UploadStatus.FAILED) "42" "43").2.1,
   (claim_C6 ⟨none, []⟩ (some UploadStatus.FAILED) "42" "43").2.2
     (by decide)⟩

/-- Witness for C7 at a concrete caller header and credential. -/
theorem claim_C7_witness :
    headersGet (fetchWithAuthHeaders [("X-Req", "1")] (some "tok"))
        "Authorization" = some ("Bearer " ++ "tok")
    ∧ ("x-req", "1") ∈ fetchWithAuthHeaders [("X-Req", "1")] (some "tok")
    ∧ fetchWithAuthHeaders [("X-Req", "1")] none = mkHeaders [("X-Req", "1")] :=
  ⟨(claim_C7 [("X-Req", "1")] "tok" (by decide)).1,
   (claim_C7 [("X-Req", "1")] "tok" (by decide)).2.1 "x-req" "1"
     (by decide) (by decide),
   (claim_C7 [("X-Req", "1")] "tok" (by decide)).2.2⟩

/-- Witness for C8 at scenario E: "report.docx" next to "ok.pdf" raises the
notice, "ok.pdf" enters the queue, and "report.docx" does not. -/
theorem claim_C8_witness :
    (addFiles [] [⟨"report.docx", 1, "application/msword"⟩,
        ⟨"ok.pdf", 2, "application/pdf"⟩]).2 = true
    ∧ (∃ g ∈ (addFiles [] [⟨"report.docx", 1, "application/msword"⟩,
        ⟨"ok.pdf", 2, "application/pdf"⟩]).1, g.name = "ok.pdf" ∧ g.size = 2)
    ∧ (⟨"report.docx", 1, "application/msword"⟩ : UFile) ∉
        (addFiles [] [⟨"report.docx", 1, "application/msword"⟩,
          ⟨"ok.pdf", 2, "application/pdf"⟩]).1 :=
  ⟨(claim_C8 [] [⟨"report.docx", 1, "application/msword"⟩,
      ⟨"ok.pdf", 2, "application/pdf"⟩]).1.mpr
      ⟨⟨"report.docx", 1, "application/msword"⟩, by decide, by decide⟩,
   (claim_C8 [] [⟨"report.docx", 1, "application/msword"⟩,
      ⟨"ok.pdf", 2, "application/pdf"⟩]).2.1
      ⟨"ok.pdf", 2, "application/pdf"⟩ (by decide) (by decide),
   fun hmem => by
    rcases (claim_C8 [] [⟨"report.docx", 1, "application/msword"⟩,
        ⟨"ok.pdf", 2, "application/pdf"⟩]).2.2.2 _ hmem with h | h
    · exact absurd h (by decide)
    · exact absurd h.2 (by decide)⟩

/-- Witness for C9 at concrete one-element queues. -/
theorem claim_C9_witness :
    noDupKey (addFiles [⟨"a.pdf", 100, "application/pdf"⟩]
        [⟨"b.xlsx", 200, "x"⟩]).1
    ∧ noDupKey (removeFile [⟨"a.pdf", 100, "application/pdf"⟩] "a.pdf" 100)
    ∧ (addFiles [⟨"a.pdf", 100, "application/pdf"⟩]
        [⟨"a.pdf", 100, "text/plain"⟩]).1
        = [⟨"a.pdf", 100, "application/pdf"⟩] :=
  ⟨(claim_C9 [⟨"a.pdf", 100, "application/pdf"⟩] [⟨"b.xlsx", 200, "x"⟩]
      ⟨"a.pdf", 100, "text/plain"⟩ "a.pdf" 100 (by simp [noDupKey])).1,
   (claim_C9 [⟨"a.pdf", 100, "application/pdf"⟩] [⟨"b.xlsx", 200, "x"⟩]
      ⟨"a.pdf", 100, "text/plain"⟩ "a.pdf" 100 (by simp [noDupKey])).2.1,
   (claim_C9 [⟨"a.pdf", 100, "application/pdf"⟩] [⟨"b.xlsx", 200, "x"⟩]
      ⟨"a.pdf", 100, "text/plain"⟩ "a.pdf" 100 (by simp [noDupKey])).2.2
     ⟨⟨"a.pdf", 100, "application/pdf"⟩, by decide, by decide, by decide⟩⟩
